import Mathlib

/-!
# Verification of the ideograph graph-intelligence core

A shallow embedding of the ideograph repository (Python) in Lean 4:
positions, typed weighted edges, walkers, the walk-step edge-update
protocol, persistence, and the analytic subsystems (void detection,
adaptive prediction, signed-balance tension scoring, fork decisiveness).

Modelling conventions:
* Python `float` is modelled as `ℚ` (every operation the claims touch is
  either exact decimal arithmetic or explicitly clamped by `min`/`max`).
* Python `dict` is modelled as an insertion-ordered association list
  `List (String × _)`; `dict.values()` iteration is list order, and
  inserting a fresh key appends at the end, as CPython guarantees.
* Python `set` iteration (used only to build neighbour suggestion lists
  and hypothesis tags, which no claim inspects order-sensitively) is
  modelled as first-occurrence order.
* Timestamp fields (`created_at`, `updated_at`, `datetime.now()`) carry no
  information relevant to any claim and are omitted from the records, as
  are the `Trajectory` and `AberrationProfile` sub-objects of `Walker`,
  which no operation under verification reads or writes.
-/

namespace Ideograph

/-! ## Association-list primitives (model of `dict`) -/

/-- `dict[k]` / `dict.get(k)`: first value stored under key `k`. -/
def alookup {α : Type} (k : String) : List (String × α) → Option α
  | [] => none
  | (k', v) :: rest => if k' = k then some v else alookup k rest

/-- In-place mutation of the object stored under key `k`
(`dict[k].method()`): rewrite the value at the first occurrence of `k`. -/
def areplace {α : Type} (k : String) (f : α → α) : List (String × α) → List (String × α)
  | [] => []
  | (k', v) :: rest =>
      if k' = k then (k', f v) :: rest else (k', v) :: areplace k f rest

/-- Model of Python `set` insertion order: keep first occurrences. -/
def dedupKeepFirst (l : List String) : List String :=
  l.foldl (fun acc x => if x ∈ acc then acc else acc ++ [x]) []

/-! ## Enumerations (`Domain`, `EdgeType`) -/

/-- `Domain` enum from `src/models/position.py`. -/
inductive Domain where
  | economics | civil_liberties | foreign_policy | social | epistemology
  | governance | technology | environment | identity | metaphysics
  | uncategorized
deriving DecidableEq, Repr

/-- `Domain.value`: the enum's string payload. -/
def Domain.toStr : Domain → String
  | .economics => "economics"
  | .civil_liberties => "civil_liberties"
  | .foreign_policy => "foreign_policy"
  | .social => "social"
  | .epistemology => "epistemology"
  | .governance => "governance"
  | .technology => "technology"
  | .environment => "environment"
  | .identity => "identity"
  | .metaphysics => "metaphysics"
  | .uncategorized => "uncategorized"

/-- `Domain(s)` constructor call: succeeds exactly on known enum strings,
raises (`none`) otherwise. -/
def Domain.ofStr (s : String) : Option Domain :=
  if s = "economics" then some .economics
  else if s = "civil_liberties" then some .civil_liberties
  else if s = "foreign_policy" then some .foreign_policy
  else if s = "social" then some .social
  else if s = "epistemology" then some .epistemology
  else if s = "governance" then some .governance
  else if s = "technology" then some .technology
  else if s = "environment" then some .environment
  else if s = "identity" then some .identity
  else if s = "metaphysics" then some .metaphysics
  else if s = "uncategorized" then some .uncategorized
  else none

/-- `EdgeType` enum from `src/models/edge.py`. -/
inductive EdgeType where
  | implies | contradicts | derives_from | prioritizes_over
  | collider | confounder | mediator | fork | association
deriving DecidableEq, Repr

/-- `EdgeType.value`. -/
def EdgeType.toStr : EdgeType → String
  | .implies => "implies"
  | .contradicts => "contradicts"
  | .derives_from => "derives_from"
  | .prioritizes_over => "prioritizes_over"
  | .collider => "collider"
  | .confounder => "confounder"
  | .mediator => "mediator"
  | .fork => "fork"
  | .association => "association"

/-- `EdgeType(s)` constructor call. -/
def EdgeType.ofStr (s : String) : Option EdgeType :=
  if s = "implies" then some .implies
  else if s = "contradicts" then some .contradicts
  else if s = "derives_from" then some .derives_from
  else if s = "prioritizes_over" then some .prioritizes_over
  else if s = "collider" then some .collider
  else if s = "confounder" then some .confounder
  else if s = "mediator" then some .mediator
  else if s = "fork" then some .fork
  else if s = "association" then some .association
  else none

/-! ## Edge (`src/models/edge.py`) -/

/-- `Edge` dataclass (timestamp fields omitted; `sources` keeps the
evidence source strings). -/
structure Edge where
  source_id : String
  target_id : String
  edge_type : EdgeType := .association
  weight : ℚ := 0.5
  evidence_count : ℕ := 0
  confidence : ℚ := 0.5
  co_occurrence : ℕ := 0
  tension : ℚ := 0
  priority_context : Option String := none
  sources : List String := []
deriving DecidableEq, Repr

namespace Edge

/-- `Edge.id`: `f"{source_id}->{target_id}:{edge_type.value}"`. -/
def id (e : Edge) : String :=
  e.source_id ++ "->" ++ e.target_id ++ ":" ++ e.edge_type.toStr

/-- `Edge.strengthen(amount)`. -/
def strengthen (e : Edge) (amount : ℚ) : Edge :=
  { e with
    weight := min 1 (e.weight + amount * (1 - e.weight))
    co_occurrence := e.co_occurrence + 1 }

/-- `Edge.weaken(amount)`. -/
def weaken (e : Edge) (amount : ℚ) : Edge :=
  { e with weight := max 0 (e.weight - amount * e.weight) }

/-- `Edge.add_evidence(source)`. -/
def add_evidence (e : Edge) (source : String) : Edge :=
  if source ∈ e.sources then e
  else
    let srcs := e.sources ++ [source]
    { e with
      sources := srcs
      evidence_count := srcs.length
      confidence := min 1 (0.3 + 0.1 * (srcs.length : ℚ)) }

/-- `Edge.record_tension()`: `self.tension += 1`. -/
def record_tension (e : Edge) : Edge :=
  { e with tension := e.tension + 1 }

end Edge

/-- One call to one of the four `Edge` mutators, with its argument. -/
inductive EdgeMut where
  | strengthen (amount : ℚ)
  | weaken (amount : ℚ)
  | addEvidence (source : String)
  | recordTension
deriving DecidableEq, Repr

/-- Dispatch one mutator call on an edge. -/
def applyMut (e : Edge) : EdgeMut → Edge
  | .strengthen a => e.strengthen a
  | .weaken a => e.weaken a
  | .addEvidence s => e.add_evidence s
  | .recordTension => e.record_tension

/-- Run a whole sequence of mutator calls. -/
def applyMuts (e : Edge) (ms : List EdgeMut) : Edge :=
  ms.foldl applyMut e

/-- The claim's stated precondition on mutator amounts: `strengthen` and
`weaken` amounts lie in `[0, 1]`. -/
def mutOk : EdgeMut → Prop
  | .strengthen a => 0 ≤ a ∧ a ≤ 1
  | .weaken a => 0 ≤ a ∧ a ≤ 1
  | .addEvidence _ => True
  | .recordTension => True

instance : DecidablePred mutOk := fun m => by
  cases m <;> simp [mutOk] <;> infer_instance

/-! ## Position (`src/models/position.py`) -/

/-- `Position` dataclass (timestamps omitted; evidence `Source` records
are kept as their text). -/
structure Position where
  id : String := ""
  claim : String := ""
  domain : Domain := .uncategorized
  valence : Option ℚ := none
  level : String := "position"
  sources : List String := []
  visit_count : ℕ := 0
  canonical_score : ℚ := 0.5
  traditions : List String := []
deriving DecidableEq, Repr

/-- `Position.record_visit()`. -/
def Position.record_visit (p : Position) : Position :=
  { p with visit_count := p.visit_count + 1 }

/-! ## Walker (`src/models/walker.py`) -/

/-- `Choice` dataclass (timestamps omitted). -/
structure Choice where
  position_id : String
  question : String := ""
  accepted : Bool := false
  confidence : ℚ := 0.5
  reasoning : Option String := none
  was_predicted : Bool := false
  prediction_confidence : ℚ := 0
deriving DecidableEq, Repr

/-- `Choice.was_surprising` property. -/
def Choice.was_surprising (c : Choice) : Bool :=
  c.was_predicted && decide (c.prediction_confidence > 0.7) && !c.accepted

/-- `PredictionError` dataclass (timestamp omitted). -/
structure PredictionError where
  position_id : String
  predicted : Bool
  actual : Bool
  prediction_confidence : ℚ
  dimension_hint : Option String := none
deriving DecidableEq, Repr

/-- `Walker` dataclass (trajectory, aberration profile and timestamps
omitted: nothing under verification touches them). -/
structure Walker where
  user_id : String
  session_id : String := ""
  path : List String := []
  choices : List Choice := []
  canonical_fit : Option String := none
  canonical_fit_score : ℚ := 0
  prediction_errors : List PredictionError := []
  edges_strengthened : List String := []
  edges_weakened : List String := []
deriving DecidableEq, Repr

namespace Walker

/-- `Walker.visit(position_id)`: first-visit-only path append. -/
def visit (w : Walker) (position_id : String) : Walker :=
  if position_id ∈ w.path then w else { w with path := w.path ++ [position_id] }

/-- `Walker.record_choice(choice)`. -/
def record_choice (w : Walker) (c : Choice) : Walker :=
  let w1 := { w with choices := w.choices ++ [c] }
  if c.was_surprising then
    { w1 with prediction_errors := w1.prediction_errors ++
        [{ position_id := c.position_id, predicted := true, actual := c.accepted,
           prediction_confidence := c.prediction_confidence }] }
  else w1

/-- `Walker.strengthen_edge(edge_id)`. -/
def strengthen_edge (w : Walker) (edge_id : String) : Walker :=
  if edge_id ∈ w.edges_strengthened then w
  else { w with edges_strengthened := w.edges_strengthened ++ [edge_id] }

/-- `Walker.weaken_edge(edge_id)`. -/
def weaken_edge (w : Walker) (edge_id : String) : Walker :=
  if edge_id ∈ w.edges_weakened then w
  else { w with edges_weakened := w.edges_weakened ++ [edge_id] }

/-- `Walker.positions_accepted` property. -/
def positions_accepted (w : Walker) : List String :=
  (w.choices.filter (fun c => c.accepted)).map (fun c => c.position_id)

/-- `Walker.positions_rejected` property. -/
def positions_rejected (w : Walker) : List String :=
  (w.choices.filter (fun c => !c.accepted)).map (fun c => c.position_id)

end Walker

/-! ## IdeologicalGraph (`src/graph/ideograph.py`) -/

/-- `IdeologicalGraph` dataclass (timestamps omitted). -/
structure Graph where
  positions : List (String × Position) := []
  edges : List (String × Edge) := []
  walkers : List (String × Walker) := []
  name : String := "ideograph"
  learning_rate : ℚ := 0.1
  decay_rate : ℚ := 0.05
deriving DecidableEq, Repr

/-- The scan inside `get_edge` when no edge type is given: the first edge
object (dict-value order) whose source and target match, together with the
dict key it is stored under (needed to model in-place mutation). -/
def findEdgeEntry (s t : String) : List (String × Edge) → Option (String × Edge)
  | [] => none
  | (k, e) :: rest =>
      if e.source_id = s ∧ e.target_id = t then some (k, e)
      else findEdgeEntry s t rest

namespace Graph

/-- `get_position`. -/
def get_position (g : Graph) (position_id : String) : Option Position :=
  alookup position_id g.positions

/-- The `position.record_visit()` call inside `walk_step`: in-place update
of the stored position. -/
def record_visit_at (g : Graph) (position_id : String) : Graph :=
  { g with positions := areplace position_id Position.record_visit g.positions }

/-- `add_edge`: insert by deterministic id, or strengthen the existing
edge by the learning rate. Returns the updated graph and the edge the
call returns. -/
def add_edge (g : Graph) (e : Edge) : Graph × Edge :=
  match alookup e.id g.edges with
  | some existing =>
      ({ g with edges := areplace e.id (fun x => x.strengthen g.learning_rate) g.edges },
       existing.strengthen g.learning_rate)
  | none => ({ g with edges := g.edges ++ [(e.id, e)] }, e)

/-- `connect(source_id, target_id, edge_type, weight)`. -/
def connect (g : Graph) (source_id target_id : String) (edge_type : EdgeType)
    (weight : ℚ) : Graph × Edge :=
  g.add_edge { source_id := source_id, target_id := target_id,
               edge_type := edge_type, weight := weight }

/-- `get_edge(source_id, target_id, edge_type=None)`. -/
def get_edge (g : Graph) (source_id target_id : String)
    (edge_type : Option EdgeType) : Option Edge :=
  match edge_type with
  | some ty => alookup (source_id ++ "->" ++ target_id ++ ":" ++ ty.toStr) g.edges
  | none => (findEdgeEntry source_id target_id g.edges).map Prod.snd

/-- `edges_from`. -/
def edges_from (g : Graph) (position_id : String) : List Edge :=
  (g.edges.map Prod.snd).filter (fun e => e.source_id == position_id)

/-- `edges_to`. -/
def edges_to (g : Graph) (position_id : String) : List Edge :=
  (g.edges.map Prod.snd).filter (fun e => e.target_id == position_id)

/-- `neighbors`: positions reachable by any edge, either direction. -/
def neighbors (g : Graph) (position_id : String) : List Position :=
  let ids := dedupKeepFirst
    ((g.edges_from position_id).map (fun e => e.target_id) ++
     (g.edges_to position_id).map (fun e => e.source_id))
  ids.filterMap (fun nid => alookup nid g.positions)

/-- `implies`: positions implied by this one. -/
def implies (g : Graph) (position_id : String) : List Position :=
  (g.edges_from position_id).filterMap (fun e =>
    if e.edge_type = .implies then alookup e.target_id g.positions else none)

/-- `implied_by`: positions that imply this one. -/
def implied_by (g : Graph) (position_id : String) : List Position :=
  (g.edges_to position_id).filterMap (fun e =>
    if e.edge_type = .implies then alookup e.source_id g.positions else none)

/-- `contradicts`: positions on the other end of a contradicts edge. -/
def contradicts (g : Graph) (position_id : String) : List Position :=
  (g.edges.map Prod.snd).filterMap (fun e =>
    if e.edge_type ≠ EdgeType.contradicts then none
    else if e.source_id = position_id ∧ (alookup e.target_id g.positions).isSome then
      alookup e.target_id g.positions
    else if e.target_id = position_id ∧ (alookup e.source_id g.positions).isSome then
      alookup e.source_id g.positions
    else none)

end Graph

/-- `walker.path[-2]`: the second-to-last visited position. -/
def penultimate {α : Type} (l : List α) : Option α :=
  l.reverse.get? 1

/-- The body of `_update_edges_from_choice` once `prev` is in hand:
look up any edge prev→current and strengthen/create/weaken it. -/
def updateEdgesCore (g : Graph) (w : Walker) (c : Choice) (prev : String) :
    Graph × Walker :=
  match findEdgeEntry prev c.position_id g.edges with
  | some ke =>
      if c.accepted then
        ({ g with edges := areplace ke.1 (fun x => x.strengthen g.learning_rate) g.edges },
         w.strengthen_edge ke.2.id)
      else if ke.2.edge_type = EdgeType.implies then
        ({ g with edges := areplace ke.1 (fun x => x.weaken g.learning_rate) g.edges },
         w.weaken_edge ke.2.id)
      else (g, w)
  | none =>
      if c.accepted then
        let ge := g.connect prev c.position_id .implies 0.3
        (ge.1, w.strengthen_edge ge.2.id)
      else (g, w)

/-- `_update_edges_from_choice(walker, choice)`: the edge-update rule.
No update when the path is shorter than 2; otherwise `prev` is
`walker.path[-2]`. -/
def updateEdgesFromChoice (g : Graph) (w : Walker) (c : Choice) : Graph × Walker :=
  if w.path.length < 2 then (g, w)
  else
    match penultimate w.path with
    | none => (g, w)
    | some prev => updateEdgesCore g w c prev

/-- Result of one `walk_step` call: the graph and walker after mutation,
and the suggested next positions the call returns. -/
structure WalkResult where
  graph : Graph
  walker : Walker
  suggestions : List Position
deriving DecidableEq, Repr

/-- `walk_step(walker, position_id, accepted, confidence, reasoning)`. -/
def Graph.walk_step (g : Graph) (w : Walker) (position_id : String)
    (accepted : Bool) (confidence : ℚ) (reasoning : Option String) : WalkResult :=
  match g.get_position position_id with
  | none => ⟨g, w, []⟩
  | some _ =>
      let w1 := w.visit position_id
      let g1 := g.record_visit_at position_id
      let c : Choice := { position_id := position_id, accepted := accepted,
                          confidence := confidence, reasoning := reasoning }
      let w2 := w1.record_choice c
      let gw := updateEdgesFromChoice g1 w2 c
      let g2 := gw.1
      let w3 := gw.2
      let next0 := if accepted then g2.implies position_id else g2.contradicts position_id
      let next1 := (g2.neighbors position_id).foldl
        (fun acc nb =>
          if nb.id ∈ w3.path ∨ acc.any (fun p => p.id == nb.id) then acc
          else acc ++ [nb]) next0
      ⟨g2, w3, next1.take 5⟩

/-! ## Persistence (`save` / `load`) -/

/-- One position as serialized by `save` (enums as strings). -/
structure SavedPosition where
  id : String
  claim : String
  domain : String
  valence : Option ℚ
  level : String
  visit_count : ℕ
  canonical_score : ℚ
  traditions : List String
deriving DecidableEq, Repr

/-- One edge as serialized by `save` (enums as strings). -/
structure SavedEdge where
  source_id : String
  target_id : String
  edge_type : String
  weight : ℚ
  evidence_count : ℕ
  confidence : ℚ
  co_occurrence : ℕ
  tension : ℚ
deriving DecidableEq, Repr

/-- The persisted graph document (timestamps omitted). -/
structure SavedData where
  name : String
  positions : List (String × SavedPosition)
  edges : List (String × SavedEdge)
deriving DecidableEq, Repr

/-- The position dict built by `save`. -/
def savePosition (p : Position) : SavedPosition :=
  { id := p.id, claim := p.claim, domain := p.domain.toStr, valence := p.valence,
    level := p.level, visit_count := p.visit_count,
    canonical_score := p.canonical_score, traditions := p.traditions }

/-- The edge dict built by `save`. -/
def saveEdge (e : Edge) : SavedEdge :=
  { source_id := e.source_id, target_id := e.target_id,
    edge_type := e.edge_type.toStr, weight := e.weight,
    evidence_count := e.evidence_count, confidence := e.confidence,
    co_occurrence := e.co_occurrence, tension := e.tension }

/-- `Graph.save`. -/
def Graph.save (g : Graph) : SavedData :=
  { name := g.name,
    positions := g.positions.map (fun kv => (kv.1, savePosition kv.2)),
    edges := g.edges.map (fun kv => (kv.1, saveEdge kv.2)) }

/-- The `Position(...)` construction inside `load`; fails on an unknown
domain string. -/
def loadPosition (pd : SavedPosition) : Option Position :=
  (Domain.ofStr pd.domain).map (fun d =>
    { id := pd.id, claim := pd.claim, domain := d, valence := pd.valence,
      level := pd.level, visit_count := pd.visit_count,
      canonical_score := pd.canonical_score, traditions := pd.traditions })

/-- The `Edge(...)` construction inside `load`; fails on an unknown
edge-type string. -/
def loadEdge (ed : SavedEdge) : Option Edge :=
  (EdgeType.ofStr ed.edge_type).map (fun ty =>
    { source_id := ed.source_id, target_id := ed.target_id, edge_type := ty,
      weight := ed.weight, evidence_count := ed.evidence_count,
      confidence := ed.confidence, co_occurrence := ed.co_occurrence,
      tension := ed.tension })

/-- The position-loading loop of `load`: builds the dict in file order,
raising (`none`) on the first unknown enum string. -/
def loadPositions : List (String × SavedPosition) → Option (List (String × Position))
  | [] => some []
  | (pid, pd) :: rest =>
      match loadPosition pd with
      | none => none
      | some p =>
          match loadPositions rest with
          | none => none
          | some ps => some ((pid, p) :: ps)

/-- The edge-loading loop of `load`. -/
def loadEdges : List (String × SavedEdge) → Option (List (String × Edge))
  | [] => some []
  | (eid, ed) :: rest =>
      match loadEdge ed with
      | none => none
      | some e =>
          match loadEdges rest with
          | none => none
          | some es => some ((eid, e) :: es)

/-- `Graph.load` applied to a parsed document: a graph with the file's
name, positions and edges, or a failure on any unknown enum string. -/
def Graph.load (d : SavedData) : Option Graph :=
  match loadPositions d.positions, loadEdges d.edges with
  | some ps, some es => some { name := d.name, positions := ps, edges := es }
  | _, _ => none

/-- `Graph.load(path)` as seen from the filesystem boundary: `none` models
a path that does not exist (`if not path.exists(): return cls()`), `some d`
a file whose JSON parsed to document `d`. -/
def loadFromDisk (contents : Option SavedData) : Option Graph :=
  match contents with
  | none => some {}
  | some d => Graph.load d

/-- A persisted document mentions an enum string no constructor accepts. -/
def SavedData.hasUnknownEnum (d : SavedData) : Prop :=
  (∃ kv ∈ d.positions, Domain.ofStr (kv.2).domain = none)
  ∨ (∃ kv ∈ d.edges, EdgeType.ofStr (kv.2).edge_type = none)

/-! ## Tension analyzer (`src/graph/tension.py`) -/

/-- Loop `for j, b in enumerate(ids[i+1:], i+1): for c in ids[j+1:]`:
ordered pairs drawn left-to-right. -/
def pairsOf {α : Type} : List α → List (α × α)
  | [] => []
  | b :: rest => rest.map (fun c => (b, c)) ++ pairsOf rest

/-- All triples `(a, b, c)` with `a` before `b` before `c`, in the
enumeration order of `calculate_sgm`'s triple loop. -/
def triadsOf {α : Type} : List α → List (α × α × α)
  | [] => []
  | a :: rest => (pairsOf rest).map (fun bc => (a, bc.1, bc.2)) ++ triadsOf rest

/-- Does this edge connect `a` and `b` (either direction)? -/
def connectsQ (a b : String) (e : Edge) : Bool :=
  (e.source_id == a && e.target_id == b) || (e.source_id == b && e.target_id == a)

/-- `WeightedBalanceState._get_relation_sign(a, b, edges)`. -/
def relationSign (attitudes : List (String × ℚ)) (edges : List Edge)
    (a b : String) : Option ℚ :=
  match edges.find? (fun e =>
      connectsQ a b e &&
      (e.edge_type == EdgeType.contradicts || e.edge_type == EdgeType.implies)) with
  | some e => if e.edge_type == EdgeType.contradicts then some (-1) else some 1
  | none =>
      match alookup a attitudes, alookup b attitudes with
      | some va, some vb => some (if 0 < va * vb then 1 else -1)
      | _, _ => none

/-- The triad scan of `calculate_sgm`: `(balanced, imbalanced)` counts,
skipping triads with an undeterminable sign. -/
def countBalance (attitudes : List (String × ℚ)) (edges : List Edge)
    (triples : List (String × String × String)) : ℕ × ℕ :=
  triples.foldl (fun bi t =>
    match relationSign attitudes edges t.1 t.2.1,
          relationSign attitudes edges t.2.1 t.2.2,
          relationSign attitudes edges t.2.2 t.1 with
    | some sab, some sbc, some sca =>
        if 0 < sab * sbc * sca then (bi.1 + 1, bi.2) else (bi.1, bi.2 + 1)
    | _, _, _ => bi) (0, 0)

/-- `WeightedBalanceState.calculate_sgm(edges)` as a function of the
attitude map and the edge list. -/
def calculate_sgm (attitudes : List (String × ℚ)) (edges : List Edge) : ℚ :=
  if attitudes.length < 3 then 0
  else
    if (countBalance attitudes edges (triadsOf (attitudes.map Prod.fst))).1
        + (countBalance attitudes edges (triadsOf (attitudes.map Prod.fst))).2 = 0 then 0
    else
      (((countBalance attitudes edges (triadsOf (attitudes.map Prod.fst))).1 : ℚ)
        - ((countBalance attitudes edges (triadsOf (attitudes.map Prod.fst))).2 : ℚ))
      / (((countBalance attitudes edges (triadsOf (attitudes.map Prod.fst))).1 : ℚ)
        + ((countBalance attitudes edges (triadsOf (attitudes.map Prod.fst))).2 : ℚ))

/-! ## Adaptive prober (`src/graph/probing.py`) -/

/-- The numeric payload of a `Prediction` (reasoning text and the
after-testing flags are not read by any claim). -/
structure Prediction where
  position_id : String
  predicted_acceptance : ℚ
  uncertainty : ℚ
deriving DecidableEq, Repr

/-- The incoming `implies` edges from accepted positions counted by
`predict_position`. -/
def impliesSignals (g : Graph) (accepted : List String) (position_id : String) :
    List Edge :=
  (g.edges_to position_id).filter (fun e =>
    e.edge_type == EdgeType.implies && accepted.contains e.source_id)

/-- The `contradicts` edges touching the position with an accepted other
endpoint counted by `predict_position`. -/
def contradictsSignals (g : Graph) (accepted : List String) (position_id : String) :
    List Edge :=
  (g.edges.map Prod.snd).filter (fun e =>
    e.edge_type == EdgeType.contradicts &&
    ((e.source_id == position_id && accepted.contains e.target_id) ||
     (e.target_id == position_id && accepted.contains e.source_id)))

/-- The count of distinct rejected positions with any edge to this one
(`rejected` is iterated as a set). -/
def rejectedSimilarCount (g : Graph) (rejected : List String)
    (position_id : String) : ℕ :=
  (dedupKeepFirst rejected).countP (fun rid => (g.get_edge rid position_id none).isSome)

/-- `implies_count + contradicts_count + rejected_similar`. -/
def totalSignals (g : Graph) (w : Walker) (position_id : String) : ℕ :=
  (impliesSignals g w.positions_accepted position_id).length +
  (contradictsSignals g w.positions_accepted position_id).length +
  rejectedSimilarCount g w.positions_rejected position_id

/-- `implies_score / max(implies_count, 1)`. -/
def acceptancePush (g : Graph) (accepted : List String) (position_id : String) : ℚ :=
  ((impliesSignals g accepted position_id).map Edge.weight).sum
    / ((max (impliesSignals g accepted position_id).length 1 : ℕ) : ℚ)

/-- `contradicts_score / max(contradicts_count, 1)`. -/
def rejectionPush (g : Graph) (accepted : List String) (position_id : String) : ℚ :=
  ((contradictsSignals g accepted position_id).map Edge.weight).sum
    / ((max (contradictsSignals g accepted position_id).length 1 : ℕ) : ℚ)

/-- `AdaptiveProber.predict_position(walker, position)`. -/
def predict_position (g : Graph) (w : Walker) (pos : Position) : Prediction :=
  if w.positions_accepted = [] ∧ w.positions_rejected = [] then
    { position_id := pos.id, predicted_acceptance := 0.5, uncertainty := 1 }
  else if totalSignals g w pos.id = 0 then
    { position_id := pos.id, predicted_acceptance := 0.5, uncertainty := 0.8 }
  else
    { position_id := pos.id,
      predicted_acceptance := max 0 (min 1 (0.5 +
        (acceptancePush g w.positions_accepted pos.id
          - rejectionPush g w.positions_accepted pos.id) * 0.4)),
      uncertainty := 1 / (1 + 0.3 * ((totalSignals g w pos.id : ℕ) : ℚ)) }

/-! ## Attractor/void detector (`src/graph/attractors.py`) -/

/-- `Void` dataclass (timestamp omitted). -/
structure Void where
  position_id : String
  position_claim : String := ""
  expected_from : List String := []
  expected_visitors : ℤ := 0
  actual_visitors : ℕ := 0
  void_ratio : ℚ := 0
  possible_reasons : List String := []
deriving DecidableEq, Repr

/-- Python `int(q)`: truncation toward zero. -/
def ratTrunc (q : ℚ) : ℤ :=
  if 0 ≤ q then ⌊q⌋ else ⌈q⌉

/-- `AttractorDetector._hypothesize_void_reasons(position, incoming_edges)`. -/
def hypothesizeVoidReasons (g : Graph) (pos : Position) (incoming : List Edge) :
    List String :=
  let contradictions := g.contradicts pos.id
  let r1 := if contradictions.any (fun p => decide (p.visit_count > 10))
            then ["socially_costly"] else []
  let source_domains := dedupKeepFirst (incoming.filterMap (fun e =>
    (alookup e.source_id g.positions).map (fun s => s.domain.toStr)))
  let r2 := if 3 ≤ source_domains.length then ["rare_combination"] else []
  let r3 := if pos.canonical_score < 0.3 then ["unarticulated"] else []
  let rs := r1 ++ r2 ++ r3
  if rs = [] then ["unknown"] else rs

/-- `expected = Σ source.visit_count × edge.weight` over the incoming
edges whose source position exists. -/
def voidExpected (g : Graph) (position_id : String) : ℚ :=
  ((g.edges_to position_id).filterMap (fun e =>
    (alookup e.source_id g.positions).map
      (fun s => (s.visit_count : ℚ) * e.weight))).sum

/-- The `expected_from` source-id list accumulated alongside `expected`. -/
def voidExpectedFrom (g : Graph) (position_id : String) : List String :=
  (g.edges_to position_id).filterMap (fun e =>
    (alookup e.source_id g.positions).map (fun _ => e.source_id))

/-- `void_ratio = 1 − actual/expected if expected > 0 else 0`. -/
def voidRatio (g : Graph) (position_id : String) (pos : Position) : ℚ :=
  if 0 < voidExpected g position_id
  then 1 - (pos.visit_count : ℚ) / voidExpected g position_id else 0

/-- The per-position loop of `detect_voids`, in dict order. -/
def detectVoidsScan (g : Graph) (min_expected min_void_ratio : ℚ) :
    List (String × Position) → List Void
  | [] => []
  | (pid, pos) :: rest =>
      if (g.edges_to pid).isEmpty then
        detectVoidsScan g min_expected min_void_ratio rest
      else if voidExpected g pid < min_expected then
        detectVoidsScan g min_expected min_void_ratio rest
      else if min_void_ratio ≤ voidRatio g pid pos then
        { position_id := pid, position_claim := pos.claim,
          expected_from := voidExpectedFrom g pid,
          expected_visitors := ratTrunc (voidExpected g pid),
          actual_visitors := pos.visit_count,
          void_ratio := voidRatio g pid pos,
          possible_reasons := hypothesizeVoidReasons g pos (g.edges_to pid) }
          :: detectVoidsScan g min_expected min_void_ratio rest
      else detectVoidsScan g min_expected min_void_ratio rest

/-- Stable descending insertion by void ratio: the model of Python's
stable `list.sort(key=..., reverse=True)`. -/
def insertVoidDesc (v : Void) : List Void → List Void
  | [] => [v]
  | x :: xs => if x.void_ratio < v.void_ratio then v :: x :: xs
               else x :: insertVoidDesc v xs

/-- `AttractorDetector.detect_voids(min_expected, min_void_ratio)`. -/
def detect_voids (g : Graph) (min_expected min_void_ratio : ℚ) : List Void :=
  (detectVoidsScan g min_expected min_void_ratio g.positions).foldl
    (fun acc v => insertVoidDesc v acc) []

/-! ## Graph compactor (`src/graph/compaction.py`) -/

/-- `ForkDecisiveness` dataclass. -/
structure ForkDecisiveness where
  fork_id : String
  downstream_positions : ℕ := 0
  prediction_accuracy : ℚ := 0
  information_gain : ℚ := 0
  betweenness : ℚ := 0
  depth : ℕ := 0
  variance_explained : ℚ := 0
  archetype_alignment : ℚ := 0
deriving DecidableEq, Repr

/-- `ForkDecisiveness.decisiveness_score` property, exactly as the source
computes it (note: no cap on the downstream term). -/
def ForkDecisiveness.decisiveness_score (d : ForkDecisiveness) : ℚ :=
  d.information_gain * 0.3 +
  d.prediction_accuracy * 0.25 +
  ((d.downstream_positions : ℚ) / 50) * 0.2 +
  d.variance_explained * 0.15 +
  d.betweenness * 0.1

/-- Modelled from the spec's words (for comparison with the source
definition above): the claimed formula, whose downstream term is capped
via `min(1, downstream/50)`. -/
def claimedDecisivenessScore (d : ForkDecisiveness) : ℚ :=
  0.3 * d.information_gain +
  0.25 * d.prediction_accuracy +
  0.2 * min 1 ((d.downstream_positions : ℚ) / 50) +
  0.15 * d.variance_explained +
  0.1 * d.betweenness

/-! ## Comparison predicates used in claim statements -/

/-- Two edges share their `(source_id, target_id, edge_type)` triple. -/
def tripleEq (e1 e2 : Edge) : Bool :=
  e1.source_id == e2.source_id && e1.target_id == e2.target_id &&
  e1.edge_type == e2.edge_type

/-- The Position fields the persisted format carries, compared
pointwise. -/
def posFieldsEq (p q : Position) : Prop :=
  p.id = q.id ∧ p.claim = q.claim ∧ p.domain = q.domain ∧ p.valence = q.valence
  ∧ p.level = q.level ∧ p.visit_count = q.visit_count
  ∧ p.canonical_score = q.canonical_score ∧ p.traditions = q.traditions

/-- The Edge fields the persisted format carries, compared pointwise. -/
def edgeFieldsEq (e f : Edge) : Prop :=
  e.source_id = f.source_id ∧ e.target_id = f.target_id
  ∧ e.edge_type = f.edge_type ∧ e.weight = f.weight
  ∧ e.evidence_count = f.evidence_count ∧ e.confidence = f.confidence
  ∧ e.co_occurrence = f.co_occurrence ∧ e.tension = f.tension

/-- What `load` reconstructs from a saved position: the eight persisted
fields, evidence sources reset to the constructor default. -/
def scrubPosition (p : Position) : Position :=
  { id := p.id, claim := p.claim, domain := p.domain, valence := p.valence,
    level := p.level, visit_count := p.visit_count,
    canonical_score := p.canonical_score, traditions := p.traditions }

/-- What `load` reconstructs from a saved edge: the eight persisted
fields, `priority_context` and `sources` at their constructor defaults. -/
def scrubEdge (e : Edge) : Edge :=
  { source_id := e.source_id, target_id := e.target_id,
    edge_type := e.edge_type, weight := e.weight,
    evidence_count := e.evidence_count, confidence := e.confidence,
    co_occurrence := e.co_occurrence, tension := e.tension }

/-! ## Concrete instances used by scenario claims, witnesses and
counterexamples -/

/-- A position with a given id (used to populate scenario graphs). -/
def mkPos (i : String) : Position := { id := i, claim := "claim " ++ i }

/-- The concrete edge for the C2 counterexample and witness: default
construction, so `weight = 0.5`, `confidence = 0.5`, `tension = 0`. -/
def c2Edge : Edge := { source_id := "a", target_id := "b" }

/-- The fork record at which the claimed cap fails: 100 downstream
positions (> 50), all other score inputs zero. -/
def c9Fork : ForkDecisiveness := { fork_id := "f", downstream_positions := 100 }

/-- An `implies` edge p→c at weight 0.5. -/
def c1ImpliesEdge : Edge :=
  { source_id := "p", target_id := "c", edge_type := .implies, weight := 0.5 }

/-- An `association` edge p→c at weight 0.5. -/
def c1AssocEdge : Edge :=
  { source_id := "p", target_id := "c", edge_type := .association, weight := 0.5 }

/-- The graph on which the C1 claim fails: both an association edge and an
implies edge p→c, the association edge inserted first, so `get_edge`
finds it first. -/
def c1GraphShadow : Graph :=
  { positions := [("p", mkPos "p"), ("c", mkPos "c")],
    edges := [(c1AssocEdge.id, c1AssocEdge), (c1ImpliesEdge.id, c1ImpliesEdge)] }

/-- The graph for the C1 witness: the implies edge p→c alone. -/
def c1GraphWitness : Graph :=
  { positions := [("p", mkPos "p"), ("c", mkPos "c")],
    edges := [(c1ImpliesEdge.id, c1ImpliesEdge)] }

/-- A walker who has visited p and is now stepped onto c. -/
def c1Walker : Walker := { user_id := "u", path := ["p"] }

/-- An edge whose string id collides with `c4EdgeNew`'s:
`"a" ++ "->" ++ "b->c"` and `"a->b" ++ "->" ++ "c"` both serialize to
`"a->b->c"`. -/
def c4EdgeX : Edge :=
  { source_id := "a", target_id := "b->c", edge_type := .implies, weight := 0.9 }

/-- The edge added twice in the C4 counterexample. -/
def c4EdgeNew : Edge :=
  { source_id := "a->b", target_id := "c", edge_type := .implies, weight := 0.5 }

/-- The graph holding only the colliding edge. -/
def c4Graph : Graph := { edges := [(c4EdgeX.id, c4EdgeX)] }

/-- The edge added twice in the C4 witness. -/
def c4WitnessEdge : Edge :=
  { source_id := "x", target_id := "y", edge_type := .implies, weight := 0.5 }

/-- A fresh walker with no history. -/
def c5Walker : Walker := { user_id := "u" }

/-- Three positive attitudes on A, B, C. -/
def c6Attitudes : List (String × ℚ) := [("A", 0.8), ("B", 0.8), ("C", 0.8)]

/-- Two implies edges and one contradicts edge closing the triad. -/
def c6Edges : List Edge :=
  [{ source_id := "A", target_id := "B", edge_type := .implies },
   { source_id := "B", target_id := "C", edge_type := .implies },
   { source_id := "A", target_id := "C", edge_type := .contradicts }]

/-- A walker with exactly one (accepted) choice. -/
def c7Walker : Walker :=
  { user_id := "u", choices := [{ position_id := "q", accepted := true }] }

/-- The C8 source position: visited 100 times. -/
def c8SourcePos : Position := { id := "S", claim := "s claim", visit_count := 100 }

/-- The C8 void position: never visited. -/
def c8VoidPos : Position := { id := "X", claim := "x claim", visit_count := 0 }

/-- The weight-1.0 implies edge S→X. -/
def c8Edge : Edge :=
  { source_id := "S", target_id := "X", edge_type := .implies, weight := 1 }

/-- The C8 scenario graph. -/
def c8Graph : Graph :=
  { positions := [("S", c8SourcePos), ("X", c8VoidPos)],
    edges := [(c8Edge.id, c8Edge)] }

/-- The `Void` record `detect_voids` produces for the C8 scenario. -/
def c8Void : Void :=
  { position_id := "X", position_claim := "x claim", expected_from := ["S"],
    expected_visitors := 100, actual_visitors := 0, void_ratio := 1,
    possible_reasons := ["unknown"] }

/-- A persisted document whose one position carries an unknown domain
string. -/
def c10BadData : SavedData :=
  { name := "g",
    positions := [("p", { id := "p", claim := "x", domain := "zzz",
                          valence := none, level := "position", visit_count := 0,
                          canonical_score := 0.5, traditions := [] })],
    edges := [] }

end Ideograph

namespace Ideograph

/-! # Theorems -/

/-! ## Association-list lemmas -/

@[simp] theorem alookup_nil {α : Type} (k : String) : alookup (α := α) k [] = none := rfl

@[simp] theorem alookup_cons {α : Type} (k k' : String) (v : α) (l : List (String × α)) :
    alookup k ((k', v) :: l) = if k' = k then some v else alookup k l := rfl

@[simp] theorem areplace_nil {α : Type} (k : String) (f : α → α) :
    areplace k f [] = [] := rfl

@[simp] theorem areplace_cons {α : Type} (k k' : String) (f : α → α) (v : α)
    (l : List (String × α)) :
    areplace k f ((k', v) :: l) =
      if k' = k then (k', f v) :: l else (k', v) :: areplace k f l := rfl

theorem alookup_eq_none_iff {α : Type} (k : String) (l : List (String × α)) :
    alookup k l = none ↔ k ∉ l.map Prod.fst := by
  induction l with
  | nil => simp
  | cons hd tl ih =>
      obtain ⟨k', v⟩ := hd
      by_cases h : k' = k
      · simp [alookup, h]
      · simp only [alookup, if_neg h, List.map_cons, List.mem_cons, ih]
        constructor
        · rintro hn (heq | hmem)
          · exact h heq.symm
          · exact hn hmem
        · intro hn
          exact fun hmem => hn (Or.inr hmem)

theorem alookup_mem {α : Type} {k : String} {v : α} {l : List (String × α)}
    (h : alookup k l = some v) : (k, v) ∈ l := by
  induction l with
  | nil => simp [alookup] at h
  | cons hd tl ih =>
      obtain ⟨k', v'⟩ := hd
      by_cases hk : k' = k
      · subst hk
        simp [alookup] at h
        subst h
        exact List.mem_cons_self _ _
      · simp [alookup, hk] at h
        exact List.mem_cons_of_mem _ (ih h)

/-- Under distinct keys, membership determines the lookup result. -/
theorem alookup_of_mem_nodup {α : Type} {k : String} {v : α} {l : List (String × α)}
    (hnd : (l.map Prod.fst).Nodup) (h : (k, v) ∈ l) : alookup k l = some v := by
  induction l with
  | nil => simp at h
  | cons hd tl ih =>
      obtain ⟨k', v'⟩ := hd
      simp only [List.map_cons, List.nodup_cons] at hnd
      rcases List.mem_cons.mp h with heq | hmem
      · cases heq
        simp [alookup]
      · have hk : k' ≠ k := by
          intro hkk
          subst hkk
          exact hnd.1 (List.mem_map_of_mem Prod.fst hmem)
        simp [alookup, hk]
        exact ih hnd.2 hmem

theorem alookup_areplace_self {α : Type} {k : String} {v : α} (f : α → α)
    {l : List (String × α)} (h : alookup k l = some v) :
    alookup k (areplace k f l) = some (f v) := by
  induction l with
  | nil => simp [alookup] at h
  | cons hd tl ih =>
      obtain ⟨k', v'⟩ := hd
      by_cases hk : k' = k
      · subst hk
        simp [alookup] at h
        subst h
        simp [areplace, alookup]
      · simp [alookup, hk] at h
        simp [areplace, alookup, hk]
        exact ih h

theorem areplace_map_fst {α : Type} (k : String) (f : α → α) (l : List (String × α)) :
    (areplace k f l).map Prod.fst = l.map Prod.fst := by
  induction l with
  | nil => rfl
  | cons hd tl ih =>
      obtain ⟨k', v'⟩ := hd
      by_cases hk : k' = k <;> simp [areplace, hk, ih]

theorem alookup_append_right {α : Type} (k : String) {l1 : List (String × α)}
    (l2 : List (String × α)) (h : alookup k l1 = none) :
    alookup k (l1 ++ l2) = alookup k l2 := by
  induction l1 with
  | nil => rfl
  | cons hd tl ih =>
      obtain ⟨k', v'⟩ := hd
      by_cases hk : k' = k
      · simp [alookup, hk] at h
      · simp [alookup, hk] at h ⊢
        exact ih h

theorem areplace_append_of_none {α : Type} (k : String) (f : α → α)
    {l1 : List (String × α)} (l2 : List (String × α)) (h : alookup k l1 = none) :
    areplace k f (l1 ++ l2) = l1 ++ areplace k f l2 := by
  induction l1 with
  | nil => rfl
  | cons hd tl ih =>
      obtain ⟨k', v'⟩ := hd
      by_cases hk : k' = k
      · simp [alookup, hk] at h
      · simp [alookup, hk] at h
        simp [areplace, hk, ih h]

theorem domainOfStr_toStr (d : Domain) : Domain.ofStr d.toStr = some d := by
  cases d <;> rfl

theorem edgeTypeOfStr_toStr (t : EdgeType) : EdgeType.ofStr t.toStr = some t := by
  cases t <;> rfl

/-! ## Claim C2 -/

theorem applyMut_preserves (e : Edge) (m : EdgeMut)
    (hw : 0 ≤ e.weight ∧ e.weight ≤ 1)
    (hc : 0 ≤ e.confidence ∧ e.confidence ≤ 1)
    (ht : 0 ≤ e.tension) (hm : mutOk m) :
    (0 ≤ (applyMut e m).weight ∧ (applyMut e m).weight ≤ 1)
    ∧ (0 ≤ (applyMut e m).confidence ∧ (applyMut e m).confidence ≤ 1)
    ∧ 0 ≤ (applyMut e m).tension := by
  obtain ⟨hw0, hw1⟩ := hw
  cases m with
  | strengthen a =>
      obtain ⟨ha0, ha1⟩ := hm
      refine ⟨⟨?_, ?_⟩, hc, ht⟩
      · exact le_min (by norm_num) (by nlinarith)
      · exact min_le_left _ _
  | weaken a =>
      obtain ⟨ha0, ha1⟩ := hm
      refine ⟨⟨le_max_left _ _, ?_⟩, hc, ht⟩
      · exact max_le (by norm_num) (by nlinarith)
  | addEvidence s =>
      simp only [applyMut, Edge.add_evidence]
      by_cases hs : s ∈ e.sources
      · simp only [if_pos hs]
        exact ⟨⟨hw0, hw1⟩, hc, ht⟩
      · simp only [if_neg hs]
        refine ⟨⟨hw0, hw1⟩, ⟨?_, min_le_left _ _⟩, ht⟩
        have : (0:ℚ) ≤ 0.3 + 0.1 * ((e.sources ++ [s]).length : ℚ) := by positivity
        exact le_min (by norm_num) this
  | recordTension =>
      refine ⟨⟨hw0, hw1⟩, hc, ?_⟩
      simp only [applyMut, Edge.record_tension]
      linarith

/-- C2 (counterexample): an edge whose `weight`, `confidence` and `tension`
all start in `[0, 1]` leaves that range after two `record_tension` calls —
`tension` is an unbounded conflict counter, so the claim that "tension
never exceeds 1" is false. -/
theorem c2_tension_counterexample :
    (applyMuts c2Edge [.recordTension, .recordTension]).tension = 2
    ∧ ¬ (applyMuts c2Edge [.recordTension, .recordTension]).tension ≤ 1 := by
  have h : (applyMuts c2Edge [.recordTension, .recordTension]).tension = 2 := by
    show (0:ℚ) + 1 + 1 = 2
    norm_num
  refine ⟨h, ?_⟩
  rw [h]
  norm_num

/-- C2 (amended): for every edge whose `weight` and `confidence` start in
`[0, 1]` and whose `tension` starts non-negative, any sequence of the four
mutators (`strengthen`/`weaken` with amounts in `[0, 1]`, `add_evidence`,
`record_tension`) keeps `weight` and `confidence` in `[0, 1]` and keeps
`tension` non-negative; `tension` is a counter and is not bounded by 1. -/
theorem c2_bounds_amended (e : Edge) (ms : List EdgeMut)
    (hw : 0 ≤ e.weight ∧ e.weight ≤ 1)
    (hc : 0 ≤ e.confidence ∧ e.confidence ≤ 1)
    (ht : 0 ≤ e.tension)
    (hms : ∀ m ∈ ms, mutOk m) :
    (0 ≤ (applyMuts e ms).weight ∧ (applyMuts e ms).weight ≤ 1)
    ∧ (0 ≤ (applyMuts e ms).confidence ∧ (applyMuts e ms).confidence ≤ 1)
    ∧ 0 ≤ (applyMuts e ms).tension := by
  induction ms generalizing e with
  | nil => exact ⟨hw, hc, ht⟩
  | cons m rest ih =>
      have hstep := applyMut_preserves e m hw hc ht (hms m (List.mem_cons_self _ _))
      exact ih (applyMut e m) hstep.1 hstep.2.1 hstep.2.2
        (fun m' hm' => hms m' (List.mem_cons_of_mem _ hm'))

/-- Witness for C2 (amended) at a concrete edge and mutator sequence. -/
theorem c2_bounds_amended_witness :
    (0 ≤ (applyMuts c2Edge [.strengthen 0.1, .weaken 0.2, .recordTension]).weight
      ∧ (applyMuts c2Edge [.strengthen 0.1, .weaken 0.2, .recordTension]).weight ≤ 1)
    ∧ (0 ≤ (applyMuts c2Edge [.strengthen 0.1, .weaken 0.2, .recordTension]).confidence
      ∧ (applyMuts c2Edge [.strengthen 0.1, .weaken 0.2, .recordTension]).confidence ≤ 1)
    ∧ 0 ≤ (applyMuts c2Edge [.strengthen 0.1, .weaken 0.2, .recordTension]).tension :=
  c2_bounds_amended c2Edge [.strengthen 0.1, .weaken 0.2, .recordTension]
    ⟨by show (0:ℚ) ≤ 0.5; norm_num, by show (0.5:ℚ) ≤ 1; norm_num⟩
    ⟨by show (0:ℚ) ≤ 0.5; norm_num, by show (0.5:ℚ) ≤ 1; norm_num⟩
    (by show (0:ℚ) ≤ 0; norm_num)
    (by
      intro m hm
      simp only [List.mem_cons, List.not_mem_nil, or_false] at hm
      rcases hm with rfl | rfl | rfl <;> norm_num [mutOk])

/-! ## Claim C9 -/

/-- C9 (counterexample): the source computes the downstream term of
`decisiveness_score` as `(downstream/50)·0.2` with no cap, so at 100
downstream positions the score is 0.4, not the claimed capped 0.2. -/
theorem c9_decisiveness_counterexample :
    ForkDecisiveness.decisiveness_score c9Fork = 2/5
    ∧ claimedDecisivenessScore c9Fork = 1/5
    ∧ ForkDecisiveness.decisiveness_score c9Fork ≠ claimedDecisivenessScore c9Fork := by
  have h1 : ForkDecisiveness.decisiveness_score c9Fork = 2/5 := by
    norm_num [ForkDecisiveness.decisiveness_score, c9Fork]
  have h2 : claimedDecisivenessScore c9Fork = 1/5 := by
    norm_num [claimedDecisivenessScore, c9Fork, min_def]
  refine ⟨h1, h2, ?_⟩
  rw [h1, h2]
  norm_num

/-- C9 (amended): `decisiveness_score` equals
`0.3·information_gain + 0.25·prediction_accuracy + 0.2·(downstream/50)
+ 0.15·variance_explained + 0.1·betweenness`, with the downstream term
uncapped: it exceeds 0.2 whenever `downstream_positions > 50`. -/
theorem c9_decisiveness_amended (d : ForkDecisiveness) :
    d.decisiveness_score =
      0.3 * d.information_gain + 0.25 * d.prediction_accuracy +
      0.2 * ((d.downstream_positions : ℚ) / 50) +
      0.15 * d.variance_explained + 0.1 * d.betweenness
    ∧ (50 < d.downstream_positions →
        0.2 < 0.2 * ((d.downstream_positions : ℚ) / 50)) := by
  constructor
  · unfold ForkDecisiveness.decisiveness_score
    ring
  · intro h
    have h50 : (50:ℚ) < (d.downstream_positions : ℚ) := by exact_mod_cast h
    have heq : (0.2:ℚ) * ((d.downstream_positions : ℚ) / 50) =
        (d.downstream_positions : ℚ) / 250 := by ring
    rw [heq, lt_div_iff₀ (by norm_num : (0:ℚ) < 250)]
    linarith

/-- Witness for C9 (amended) at the concrete fork record. -/
theorem c9_decisiveness_amended_witness :
    (0.2:ℚ) < 0.2 * ((c9Fork.downstream_positions : ℚ) / 50) :=
  (c9_decisiveness_amended c9Fork).2 (by decide)

/-! ## Walk-step lemmas (claims C1 and C5) -/

theorem Walker.record_choice_path (w : Walker) (c : Choice) :
    (w.record_choice c).path = w.path := by
  unfold Walker.record_choice
  split <;> rfl

theorem Walker.mem_weaken_edge (w : Walker) (i : String) :
    i ∈ (w.weaken_edge i).edges_weakened := by
  unfold Walker.weaken_edge
  split
  · assumption
  · simp

theorem Graph.record_visit_at_edges (g : Graph) (pid : String) :
    (g.record_visit_at pid).edges = g.edges := rfl

theorem findEdgeEntry_eq_some {s t : String} {l : List (String × Edge)}
    {kv : String × Edge} (h : findEdgeEntry s t l = some kv) :
    kv ∈ l ∧ (kv.2).source_id = s ∧ (kv.2).target_id = t := by
  induction l with
  | nil => simp [findEdgeEntry] at h
  | cons hd tl ih =>
      obtain ⟨k, e⟩ := hd
      by_cases hc : e.source_id = s ∧ e.target_id = t
      · rw [findEdgeEntry, if_pos hc] at h
        cases h
        exact ⟨List.mem_cons_self _ _, hc⟩
      · rw [findEdgeEntry, if_neg hc] at h
        exact ⟨List.mem_cons_of_mem _ (ih h).1, (ih h).2⟩

/-- `walk_step` on a known position: the mutated graph and walker are those
of the edge-update step applied after the visit and the choice record. -/
theorem walk_step_eq_of_found (g : Graph) (w : Walker) (pid : String)
    (accepted : Bool) (conf : ℚ) (r : Option String) (pos : Position)
    (hpos : g.get_position pid = some pos) :
    (g.walk_step w pid accepted conf r).graph =
      (updateEdgesFromChoice (g.record_visit_at pid)
        ((w.visit pid).record_choice
          { position_id := pid, accepted := accepted, confidence := conf, reasoning := r })
        { position_id := pid, accepted := accepted, confidence := conf, reasoning := r }).1
    ∧ (g.walk_step w pid accepted conf r).walker =
      (updateEdgesFromChoice (g.record_visit_at pid)
        ((w.visit pid).record_choice
          { position_id := pid, accepted := accepted, confidence := conf, reasoning := r })
        { position_id := pid, accepted := accepted, confidence := conf, reasoning := r }).2 := by
  constructor <;> · unfold Graph.walk_step; rw [hpos]

/-- The edge-update rule with a long-enough path reduces to its core. -/
theorem updateEdgesFromChoice_eq_core (g : Graph) (w : Walker) (c : Choice)
    (prev : String) (hlen : 2 ≤ w.path.length)
    (hprev : penultimate w.path = some prev) :
    updateEdgesFromChoice g w c = updateEdgesCore g w c prev := by
  unfold updateEdgesFromChoice
  rw [if_neg (not_lt.mpr hlen), hprev]

/-- The core on a rejected choice when the scan finds an edge. -/
theorem updateEdgesCore_found_rejected (g : Graph) (w : Walker) (c : Choice)
    (prev k : String) (e : Edge) (hacc : c.accepted = false)
    (hfind : findEdgeEntry prev c.position_id g.edges = some (k, e)) :
    updateEdgesCore g w c prev =
      if e.edge_type = EdgeType.implies then
        ({ g with edges := areplace k (fun x => x.weaken g.learning_rate) g.edges },
         w.weaken_edge e.id)
      else (g, w) := by
  unfold updateEdgesCore
  rw [hfind, hacc]
  simp

/-- The core on a rejected choice when the scan finds nothing. -/
theorem updateEdgesCore_none_rejected (g : Graph) (w : Walker) (c : Choice)
    (prev : String) (hacc : c.accepted = false)
    (hfind : findEdgeEntry prev c.position_id g.edges = none) :
    updateEdgesCore g w c prev = (g, w) := by
  unfold updateEdgesCore
  rw [hfind, hacc]
  simp

/-! ## Claim C1 -/

/-- C1 (amended): on a rejected `walk_step` with path length ≥ 2, the edge
lookup scans the edge map for the *first* edge prev→current of any type;
when that first-found edge is of type `implies` (in particular when it is
the only edge prev→current), `walk_step` weakens it by the learning rate
and records its id in the walker's weakened-edge list; when no edge
prev→current exists at all, the edge map is left unchanged. (The claim as
frozen is falsified by `c1_edge_update_counterexample`: an `implies` edge
can be shadowed by an earlier edge of another type between the same pair,
and is then not weakened.) -/
theorem c1_edge_update_amended (g : Graph) (w : Walker) (pid prev : String)
    (conf : ℚ) (r : Option String) (pos : Position)
    (hkeys : ∀ kv ∈ g.edges, kv.1 = Edge.id kv.2)
    (hnodup : (g.edges.map Prod.fst).Nodup)
    (hpos : g.get_position pid = some pos)
    (hlen : 2 ≤ ((w.visit pid).path).length)
    (hprev : penultimate ((w.visit pid)).path = some prev) :
    (∀ k e, findEdgeEntry prev pid g.edges = some (k, e) →
        e.edge_type = EdgeType.implies →
        alookup (Edge.id e) (g.walk_step w pid false conf r).graph.edges
            = some (e.weaken g.learning_rate)
        ∧ Edge.id e ∈ (g.walk_step w pid false conf r).walker.edges_weakened)
    ∧ (findEdgeEntry prev pid g.edges = none →
        (g.walk_step w pid false conf r).graph.edges = g.edges) := by
  obtain ⟨hg, hw⟩ := walk_step_eq_of_found g w pid false conf r pos hpos
  have hpath : ((w.visit pid).record_choice
      { position_id := pid, accepted := false, confidence := conf, reasoning := r }).path
      = (w.visit pid).path := Walker.record_choice_path _ _
  have hcore := updateEdgesFromChoice_eq_core (g.record_visit_at pid)
    ((w.visit pid).record_choice
      { position_id := pid, accepted := false, confidence := conf, reasoning := r })
    { position_id := pid, accepted := false, confidence := conf, reasoning := r }
    prev (by rw [hpath]; exact hlen) (by rw [hpath]; exact hprev)
  constructor
  · intro k e hfind hty
    have hfound := updateEdgesCore_found_rejected (g.record_visit_at pid)
      ((w.visit pid).record_choice
        { position_id := pid, accepted := false, confidence := conf, reasoning := r })
      { position_id := pid, accepted := false, confidence := conf, reasoning := r }
      prev k e rfl (by rw [Graph.record_visit_at_edges]; exact hfind)
    rw [hty, if_pos rfl] at hfound
    have hmemtriple := findEdgeEntry_eq_some hfind
    have hkey : k = Edge.id e := hkeys (k, e) hmemtriple.1
    have hlook : alookup (Edge.id e) g.edges = some e := by
      rw [← hkey]
      exact alookup_of_mem_nodup hnodup hmemtriple.1
    constructor
    · rw [hg, hcore, hfound]
      show alookup (Edge.id e)
        (areplace k (fun x => x.weaken (g.record_visit_at pid).learning_rate) g.edges)
        = some (e.weaken g.learning_rate)
      subst hkey
      exact alookup_areplace_self
        (fun x => x.weaken (g.record_visit_at pid).learning_rate) hlook
    · rw [hw, hcore, hfound]
      exact Walker.mem_weaken_edge _ _
  · intro hnone
    have hcnone := updateEdgesCore_none_rejected (g.record_visit_at pid)
      ((w.visit pid).record_choice
        { position_id := pid, accepted := false, confidence := conf, reasoning := r })
      { position_id := pid, accepted := false, confidence := conf, reasoning := r }
      prev rfl (by rw [Graph.record_visit_at_edges]; exact hnone)
    rw [hg, hcore, hcnone]
    rfl

/-- C1 (counterexample): in `c1GraphShadow` an `implies` edge p→c exists,
the walker rejects c after visiting p, yet no edge is weakened and nothing
is recorded, because `get_edge` found the association edge first. -/
theorem c1_edge_update_counterexample :
    alookup (Edge.id c1ImpliesEdge) c1GraphShadow.edges = some c1ImpliesEdge
    ∧ (c1GraphShadow.walk_step c1Walker "c" false 0.5 none).graph.edges
        = c1GraphShadow.edges
    ∧ (c1GraphShadow.walk_step c1Walker "c" false 0.5 none).walker.edges_weakened
        = [] :=
  ⟨rfl, rfl, rfl⟩

/-- Witness for C1 (amended): with the implies edge alone, a rejected step
weakens it and records its id. -/
theorem c1_edge_update_amended_witness :
    alookup (Edge.id c1ImpliesEdge)
      (c1GraphWitness.walk_step c1Walker "c" false 0.5 none).graph.edges
      = some (c1ImpliesEdge.weaken c1GraphWitness.learning_rate)
    ∧ Edge.id c1ImpliesEdge ∈
      (c1GraphWitness.walk_step c1Walker "c" false 0.5 none).walker.edges_weakened :=
  (c1_edge_update_amended c1GraphWitness c1Walker "c" "p" 0.5 none (mkPos "c")
      (by intro kv hkv
          have hone : kv = (c1ImpliesEdge.id, c1ImpliesEdge) := by
            simpa [c1GraphWitness] using hkv
          subst hone
          rfl)
      (List.nodup_singleton _)
      rfl
      Nat.le.refl
      rfl).1
    (Edge.id c1ImpliesEdge) c1ImpliesEdge rfl rfl

/-! ## Claim C5 -/

/-- C5: `walk_step` on a position id not present in the graph returns the
empty suggestion list and leaves both the graph and the walker entirely
unchanged. -/
theorem c5_walk_step_unknown (g : Graph) (w : Walker) (pid : String)
    (accepted : Bool) (conf : ℚ) (r : Option String)
    (h : g.get_position pid = none) :
    g.walk_step w pid accepted conf r = ⟨g, w, []⟩ := by
  unfold Graph.walk_step
  rw [h]

/-- Witness for C5 at a concrete empty graph and fresh walker. -/
theorem c5_walk_step_unknown_witness :
    ({} : Graph).walk_step c5Walker "missing" true 0.5 none
      = ⟨{}, c5Walker, []⟩ :=
  c5_walk_step_unknown {} c5Walker "missing" true 0.5 none rfl

/-! ## Edge-id and triple lemmas (claim C4) -/

theorem tripleEq_self (e : Edge) : tripleEq e e = true := by
  simp [tripleEq]

theorem tripleEq_id {a b : Edge} (h : tripleEq a b = true) : Edge.id a = Edge.id b := by
  simp only [tripleEq, Bool.and_eq_true, beq_iff_eq] at h
  obtain ⟨⟨hs, ht⟩, hty⟩ := h
  unfold Edge.id
  rw [hs, ht, hty]

theorem tripleEq_strengthen (x e : Edge) (lr : ℚ) :
    tripleEq (x.strengthen lr) e = tripleEq x e := rfl

theorem strengthen_weight_mono (x : Edge) (lr : ℚ) (_h0 : 0 ≤ x.weight)
    (h1 : x.weight ≤ 1) (hlr : 0 ≤ lr) :
    x.weight ≤ (x.strengthen lr).weight :=
  le_min h1 (by nlinarith)

theorem strengthen_weight_bounds (x : Edge) (lr : ℚ) (h0 : 0 ≤ x.weight)
    (h1 : x.weight ≤ 1) (hlr : 0 ≤ lr) :
    0 ≤ (x.strengthen lr).weight ∧ (x.strengthen lr).weight ≤ 1 :=
  ⟨le_trans h0 (strengthen_weight_mono x lr h0 h1 hlr), min_le_left _ _⟩

theorem areplace_countP {α : Type} (k : String) (f : α → α)
    (p : String × α → Bool) (hpres : ∀ k' v, p (k', f v) = p (k', v))
    (l : List (String × α)) :
    (areplace k f l).countP p = l.countP p := by
  induction l with
  | nil => rfl
  | cons hd tl ih =>
      obtain ⟨k', v⟩ := hd
      by_cases hk : k' = k
      · simp [areplace, hk, List.countP_cons, hpres]
      · simp [areplace, hk, List.countP_cons, ih]

/-- Under distinct keys, a predicate true at one member and forcing that
member's key counts exactly one entry. -/
theorem countP_eq_one_of_key {α : Type} {l : List (String × α)} {k0 : String}
    {v0 : α} (p : String × α → Bool) (hnd : (l.map Prod.fst).Nodup)
    (hmem : (k0, v0) ∈ l) (hp : p (k0, v0) = true)
    (hkey : ∀ kv ∈ l, p kv = true → kv.1 = k0) :
    l.countP p = 1 := by
  induction l with
  | nil => simp at hmem
  | cons hd tl ih =>
      simp only [List.map_cons, List.nodup_cons] at hnd
      rcases List.mem_cons.mp hmem with heq | hmem'
      · subst heq
        rw [List.countP_cons, if_pos hp]
        have htl : tl.countP p = 0 := by
          rw [List.countP_eq_zero]
          intro a ha hpa
          have hk := hkey a (List.mem_cons_of_mem _ ha) hpa
          have hmap : a.1 ∈ tl.map Prod.fst := List.mem_map_of_mem Prod.fst ha
          rw [hk] at hmap
          exact hnd.1 hmap
        rw [htl]
      · obtain ⟨k', v'⟩ := hd
        have hph : ¬ p (k', v') = true := by
          intro hp'
          have hk' : k' = k0 := hkey (k', v') (List.mem_cons_self _ _) hp'
          have : k0 ∈ tl.map Prod.fst := List.mem_map_of_mem Prod.fst hmem'
          exact hnd.1 (hk' ▸ this)
        rw [List.countP_cons, if_neg hph]
        rw [ih hnd.2 hmem' (fun kv hkv => hkey kv (List.mem_cons_of_mem _ hkv))]

theorem add_edge_of_none (g : Graph) (e : Edge)
    (h : alookup (Edge.id e) g.edges = none) :
    g.add_edge e = ({ g with edges := g.edges ++ [(e.id, e)] }, e) := by
  unfold Graph.add_edge
  rw [h]

theorem add_edge_of_some (g : Graph) (e ex : Edge)
    (h : alookup (Edge.id e) g.edges = some ex) :
    g.add_edge e =
      ({ g with edges := areplace e.id (fun x => x.strengthen g.learning_rate) g.edges },
       ex.strengthen g.learning_rate) := by
  unfold Graph.add_edge
  rw [h]

/-! ## Claim C4 -/

/-- C4 (amended): two `add_edge` calls with edges sharing one
`(source, target, type)` triple leave exactly one stored edge for that
triple, with weight not decreased by the second call — *provided* the
graph is well-keyed (each entry keyed by its edge's id, keys distinct,
weights in `[0, 1]`, learning rate ≥ 0) and no stored edge's serialized id
collides with the new edge's id while carrying a different triple. (The
unamended claim is falsified by `c4_add_edge_counterexample`: the id
string `f"{source}->{target}:{type}"` is not injective, e.g.
`("a", "b->c")` and `("a->b", "c")` collide, and then `add_edge`
strengthens an unrelated edge and stores nothing for the new triple.) -/
theorem c4_add_edge_amended (g : Graph) (e1 e2 : Edge)
    (hkeys : ∀ kv ∈ g.edges, kv.1 = Edge.id kv.2)
    (hnodup : (g.edges.map Prod.fst).Nodup)
    (hweights : ∀ kv ∈ g.edges, 0 ≤ (kv.2).weight ∧ (kv.2).weight ≤ 1)
    (hlr : 0 ≤ g.learning_rate)
    (he1 : 0 ≤ e1.weight ∧ e1.weight ≤ 1)
    (htriple : tripleEq e2 e1 = true)
    (hinj : ∀ kv ∈ g.edges, Edge.id kv.2 = Edge.id e1 → tripleEq kv.2 e1 = true) :
    (((g.add_edge e1).1.add_edge e2).1.edges.countP (fun kv => tripleEq kv.2 e1) = 1)
    ∧ ∃ a b, alookup (Edge.id e1) (g.add_edge e1).1.edges = some a
        ∧ alookup (Edge.id e1) ((g.add_edge e1).1.add_edge e2).1.edges = some b
        ∧ a.weight ≤ b.weight := by
  have hid : Edge.id e2 = Edge.id e1 := tripleEq_id htriple
  have hpres : ∀ (lr : ℚ) (k' : String) (v : Edge),
      (fun kv => tripleEq kv.2 e1) (k', v.strengthen lr)
        = (fun kv => tripleEq kv.2 e1) (k', v) := fun _ _ _ => rfl
  cases h0 : alookup (Edge.id e1) g.edges with
  | none =>
      have hstep1 := add_edge_of_none g e1 h0
      have hlook1 : alookup (Edge.id e1) (g.add_edge e1).1.edges = some e1 := by
        rw [hstep1]
        show alookup (Edge.id e1) (g.edges ++ [(e1.id, e1)]) = some e1
        rw [alookup_append_right _ _ h0]
        simp [alookup]
      have hlr1 : 0 ≤ (g.add_edge e1).1.learning_rate := by
        rw [hstep1]; exact hlr
      have hstep2 := add_edge_of_some (g.add_edge e1).1 e2 e1
        (by rw [hid]; exact hlook1)
      have hlook2 : alookup (Edge.id e1) ((g.add_edge e1).1.add_edge e2).1.edges
          = some (e1.strengthen (g.add_edge e1).1.learning_rate) := by
        rw [hstep2]
        show alookup (Edge.id e1)
          (areplace (Edge.id e2)
            (fun x => x.strengthen (g.add_edge e1).1.learning_rate)
            (g.add_edge e1).1.edges) = _
        rw [hid]
        exact alookup_areplace_self _ hlook1
      refine ⟨?_, e1, e1.strengthen (g.add_edge e1).1.learning_rate, hlook1, hlook2,
        strengthen_weight_mono e1 _ he1.1 he1.2 hlr1⟩
      rw [hstep2]
      show (areplace (Edge.id e2)
          (fun x => x.strengthen (g.add_edge e1).1.learning_rate)
          (g.add_edge e1).1.edges).countP (fun kv => tripleEq kv.2 e1) = 1
      rw [areplace_countP _ _ _ (hpres _), hstep1]
      show (g.edges ++ [(e1.id, e1)]).countP (fun kv => tripleEq kv.2 e1) = 1
      rw [List.countP_append]
      have hz : g.edges.countP (fun kv => tripleEq kv.2 e1) = 0 := by
        rw [List.countP_eq_zero]
        intro kv hkv hpkv
        have h1 : kv.1 = Edge.id e1 := by
          rw [hkeys kv hkv]
          exact tripleEq_id hpkv
        have : Edge.id e1 ∈ g.edges.map Prod.fst := h1 ▸ List.mem_map_of_mem Prod.fst hkv
        exact (alookup_eq_none_iff _ _).mp h0 this
      rw [hz]
      simp [List.countP_cons, tripleEq_self]
  | some ex =>
      have hmem : (Edge.id e1, ex) ∈ g.edges := alookup_mem h0
      have hexkey : Edge.id e1 = Edge.id ex := hkeys _ hmem
      have htr_ex : tripleEq ex e1 = true := hinj _ hmem hexkey.symm
      have hw_ex := hweights _ hmem
      have hstep1 := add_edge_of_some g e1 ex h0
      have hlook1 : alookup (Edge.id e1) (g.add_edge e1).1.edges
          = some (ex.strengthen g.learning_rate) := by
        rw [hstep1]
        exact alookup_areplace_self _ h0
      have hlr1 : 0 ≤ (g.add_edge e1).1.learning_rate := by
        rw [hstep1]; exact hlr
      have hstep2 := add_edge_of_some (g.add_edge e1).1 e2 (ex.strengthen g.learning_rate)
        (by rw [hid]; exact hlook1)
      have hlook2 : alookup (Edge.id e1) ((g.add_edge e1).1.add_edge e2).1.edges
          = some ((ex.strengthen g.learning_rate).strengthen
              (g.add_edge e1).1.learning_rate) := by
        rw [hstep2]
        show alookup (Edge.id e1)
          (areplace (Edge.id e2)
            (fun x => x.strengthen (g.add_edge e1).1.learning_rate)
            (g.add_edge e1).1.edges) = _
        rw [hid]
        exact alookup_areplace_self _ hlook1
      have hb := strengthen_weight_bounds ex g.learning_rate hw_ex.1 hw_ex.2 hlr
      refine ⟨?_, ex.strengthen g.learning_rate,
        (ex.strengthen g.learning_rate).strengthen (g.add_edge e1).1.learning_rate,
        hlook1, hlook2,
        strengthen_weight_mono (ex.strengthen g.learning_rate) _ hb.1 hb.2 hlr1⟩
      rw [hstep2]
      show (areplace (Edge.id e2)
          (fun x => x.strengthen (g.add_edge e1).1.learning_rate)
          (g.add_edge e1).1.edges).countP (fun kv => tripleEq kv.2 e1) = 1
      rw [areplace_countP _ _ _ (hpres _), hstep1]
      show (areplace (Edge.id e1)
          (fun x => x.strengthen g.learning_rate) g.edges).countP
          (fun kv => tripleEq kv.2 e1) = 1
      rw [areplace_countP _ _ _ (hpres _)]
      exact countP_eq_one_of_key _ hnodup hmem htr_ex
        (fun kv hkv hpkv => by rw [hkeys kv hkv]; exact tripleEq_id hpkv)

/-- C4 (counterexample): the edges `("a", "b->c", implies)` and
`("a->b", "c", implies)` have different triples but the same serialized
id; adding the second twice to a graph holding the first leaves zero
stored edges with the new triple, not one. -/
theorem c4_add_edge_counterexample :
    Edge.id c4EdgeX = Edge.id c4EdgeNew
    ∧ tripleEq c4EdgeX c4EdgeNew = false
    ∧ (((c4Graph.add_edge c4EdgeNew).1.add_edge c4EdgeNew).1.edges.countP
        (fun kv => tripleEq kv.2 c4EdgeNew)) = 0 :=
  ⟨rfl, rfl, rfl⟩

/-- Witness for C4 (amended) on the empty graph. -/
theorem c4_add_edge_amended_witness :
    ((({} : Graph).add_edge c4WitnessEdge).1.add_edge c4WitnessEdge).1.edges.countP
      (fun kv => tripleEq kv.2 c4WitnessEdge) = 1
    ∧ ∃ a b, alookup (Edge.id c4WitnessEdge)
          (({} : Graph).add_edge c4WitnessEdge).1.edges = some a
        ∧ alookup (Edge.id c4WitnessEdge)
            ((({} : Graph).add_edge c4WitnessEdge).1.add_edge c4WitnessEdge).1.edges
            = some b
        ∧ a.weight ≤ b.weight :=
  c4_add_edge_amended {} c4WitnessEdge c4WitnessEdge
    (fun kv hkv => absurd hkv (List.not_mem_nil kv))
    List.nodup_nil
    (fun kv hkv => absurd hkv (List.not_mem_nil kv))
    (by show (0:ℚ) ≤ 0.1; norm_num)
    ⟨by show (0:ℚ) ≤ 0.5; norm_num, by show (0.5:ℚ) ≤ 1; norm_num⟩
    (tripleEq_self c4WitnessEdge)
    (fun kv hkv => absurd hkv (List.not_mem_nil kv))

/-! ## Persistence lemmas (claims C3 and C10) -/

theorem loadPosition_savePosition (p : Position) :
    loadPosition (savePosition p) = some (scrubPosition p) := by
  unfold loadPosition savePosition scrubPosition
  rw [domainOfStr_toStr]
  rfl

theorem loadEdge_saveEdge (e : Edge) :
    loadEdge (saveEdge e) = some (scrubEdge e) := by
  unfold loadEdge saveEdge scrubEdge
  rw [edgeTypeOfStr_toStr]
  rfl

theorem loadPositions_map_save (ps : List (String × Position)) :
    loadPositions (ps.map (fun kv => (kv.1, savePosition kv.2)))
      = some (ps.map (fun kv => (kv.1, scrubPosition kv.2))) := by
  induction ps with
  | nil => rfl
  | cons hd tl ih =>
      obtain ⟨pid, p⟩ := hd
      simp only [List.map_cons, loadPositions, loadPosition_savePosition, ih]

theorem loadEdges_map_save (es : List (String × Edge)) :
    loadEdges (es.map (fun kv => (kv.1, saveEdge kv.2)))
      = some (es.map (fun kv => (kv.1, scrubEdge kv.2))) := by
  induction es with
  | nil => rfl
  | cons hd tl ih =>
      obtain ⟨eid, e⟩ := hd
      simp only [List.map_cons, loadEdges, loadEdge_saveEdge, ih]

theorem posFieldsEq_scrub (p : Position) : posFieldsEq p (scrubPosition p) :=
  ⟨rfl, rfl, rfl, rfl, rfl, rfl, rfl, rfl⟩

theorem edgeFieldsEq_scrub (e : Edge) : edgeFieldsEq e (scrubEdge e) :=
  ⟨rfl, rfl, rfl, rfl, rfl, rfl, rfl, rfl⟩

/-! ## Claim C3 -/

/-- C3: `load(save(graph))` succeeds and reproduces, entry by entry and in
order, every persisted Position field (id, claim, domain, valence, level,
visit_count, canonical_score, traditions) and every persisted Edge field
(source_id, target_id, edge_type, weight, evidence_count, confidence,
co_occurrence, tension). (Enum values are total in this embedding, so the
"only known enum values" proviso always holds.) -/
theorem c3_save_load_roundtrip (g : Graph) :
    ∃ g', Graph.load (Graph.save g) = some g'
      ∧ List.Forall₂ (fun kv kv' : String × Position =>
          kv.1 = kv'.1 ∧ posFieldsEq kv.2 kv'.2) g.positions g'.positions
      ∧ List.Forall₂ (fun kv kv' : String × Edge =>
          kv.1 = kv'.1 ∧ edgeFieldsEq kv.2 kv'.2) g.edges g'.edges := by
  refine ⟨{ name := g.name,
            positions := g.positions.map (fun kv => (kv.1, scrubPosition kv.2)),
            edges := g.edges.map (fun kv => (kv.1, scrubEdge kv.2)) }, ?_, ?_, ?_⟩
  · simp only [Graph.load, Graph.save, loadPositions_map_save, loadEdges_map_save]
  · rw [List.forall₂_map_right_iff]
    rw [List.forall₂_same]
    intro kv _
    exact ⟨rfl, posFieldsEq_scrub kv.2⟩
  · rw [List.forall₂_map_right_iff]
    rw [List.forall₂_same]
    intro kv _
    exact ⟨rfl, edgeFieldsEq_scrub kv.2⟩

/-! ## Claim C10 -/

theorem loadPositions_none_has_bad {l : List (String × SavedPosition)}
    (h : loadPositions l = none) :
    ∃ kv ∈ l, Domain.ofStr (kv.2).domain = none := by
  induction l with
  | nil => simp [loadPositions] at h
  | cons hd tl ih =>
      obtain ⟨pid, pd⟩ := hd
      cases hlp : loadPosition pd with
      | none =>
          refine ⟨(pid, pd), List.mem_cons_self _ _, ?_⟩
          rw [loadPosition, Option.map_eq_none'] at hlp
          exact hlp
      | some p =>
          cases hrest : loadPositions tl with
          | none =>
              obtain ⟨kv, hm, hb⟩ := ih hrest
              exact ⟨kv, List.mem_cons_of_mem _ hm, hb⟩
          | some ps =>
              rw [loadPositions, hlp, hrest] at h
              simp at h

theorem loadEdges_none_has_bad {l : List (String × SavedEdge)}
    (h : loadEdges l = none) :
    ∃ kv ∈ l, EdgeType.ofStr (kv.2).edge_type = none := by
  induction l with
  | nil => simp [loadEdges] at h
  | cons hd tl ih =>
      obtain ⟨eid, ed⟩ := hd
      cases hle : loadEdge ed with
      | none =>
          refine ⟨(eid, ed), List.mem_cons_self _ _, ?_⟩
          rw [loadEdge, Option.map_eq_none'] at hle
          exact hle
      | some e =>
          cases hrest : loadEdges tl with
          | none =>
              obtain ⟨kv, hm, hb⟩ := ih hrest
              exact ⟨kv, List.mem_cons_of_mem _ hm, hb⟩
          | some es =>
              rw [loadEdges, hle, hrest] at h
              simp at h

/-- C10: loading a path that does not exist yields a fresh graph — empty
position, edge and walker maps — rather than an exception; and a parsed
file fails to load only when it mentions an unknown enum string. -/
theorem c10_load_missing_file :
    loadFromDisk none = some ({} : Graph)
    ∧ ({} : Graph).positions = ([] : List (String × Position))
    ∧ ({} : Graph).edges = ([] : List (String × Edge))
    ∧ ({} : Graph).walkers = ([] : List (String × Walker))
    ∧ ∀ d : SavedData, Graph.load d = none → d.hasUnknownEnum := by
  refine ⟨rfl, rfl, rfl, rfl, ?_⟩
  intro d hload
  unfold Graph.load at hload
  unfold SavedData.hasUnknownEnum
  cases hp : loadPositions d.positions with
  | none => exact Or.inl (loadPositions_none_has_bad hp)
  | some ps =>
      cases he : loadEdges d.edges with
      | none => exact Or.inr (loadEdges_none_has_bad he)
      | some es =>
          rw [hp, he] at hload
          simp at hload

/-- Witness for C10 at a concrete document with an unknown domain
string. -/
theorem c10_load_missing_file_witness : c10BadData.hasUnknownEnum :=
  c10_load_missing_file.2.2.2.2 c10BadData rfl

/-! ## Claim C6 -/

/-- C6: `calculate_sgm` returns 0 when fewer than 3 attitudes exist or no
triad is determinable; otherwise it returns
(balanced − imbalanced)/total, always in [−1, 1]; and on the concrete
triad A, B, C with implies edges A→B, B→C (sign +1) and a contradicts
edge A→C (sign −1), the sign product is negative, the triad counts as
imbalanced, and the SGM is −1. -/
theorem c6_sgm :
    (∀ (attitudes : List (String × ℚ)) (edges : List Edge),
        attitudes.length < 3 → calculate_sgm attitudes edges = 0)
    ∧ (∀ (attitudes : List (String × ℚ)) (edges : List Edge),
        (countBalance attitudes edges (triadsOf (attitudes.map Prod.fst))).1
          + (countBalance attitudes edges (triadsOf (attitudes.map Prod.fst))).2 = 0 →
        calculate_sgm attitudes edges = 0)
    ∧ (∀ (attitudes : List (String × ℚ)) (edges : List Edge) (b i : ℕ),
        countBalance attitudes edges (triadsOf (attitudes.map Prod.fst)) = (b, i) →
        b + i ≠ 0 → ¬ attitudes.length < 3 →
        calculate_sgm attitudes edges = ((b : ℚ) - (i : ℚ)) / ((b : ℚ) + (i : ℚ))
        ∧ -1 ≤ calculate_sgm attitudes edges ∧ calculate_sgm attitudes edges ≤ 1)
    ∧ (relationSign c6Attitudes c6Edges "A" "B" = some 1
       ∧ relationSign c6Attitudes c6Edges "B" "C" = some 1
       ∧ relationSign c6Attitudes c6Edges "C" "A" = some (-1)
       ∧ countBalance c6Attitudes c6Edges (triadsOf (c6Attitudes.map Prod.fst)) = (0, 1)
       ∧ calculate_sgm c6Attitudes c6Edges = -1) := by
  have hpart1 : ∀ (attitudes : List (String × ℚ)) (edges : List Edge),
      attitudes.length < 3 → calculate_sgm attitudes edges = 0 := by
    intro att edges h
    unfold calculate_sgm
    rw [if_pos h]
  have hpart2 : ∀ (attitudes : List (String × ℚ)) (edges : List Edge),
      (countBalance attitudes edges (triadsOf (attitudes.map Prod.fst))).1
        + (countBalance attitudes edges (triadsOf (attitudes.map Prod.fst))).2 = 0 →
      calculate_sgm attitudes edges = 0 := by
    intro att edges h
    unfold calculate_sgm
    by_cases hlen : att.length < 3
    · rw [if_pos hlen]
    · rw [if_neg hlen, if_pos h]
  have hpart3 : ∀ (attitudes : List (String × ℚ)) (edges : List Edge) (b i : ℕ),
      countBalance attitudes edges (triadsOf (attitudes.map Prod.fst)) = (b, i) →
      b + i ≠ 0 → ¬ attitudes.length < 3 →
      calculate_sgm attitudes edges = ((b : ℚ) - (i : ℚ)) / ((b : ℚ) + (i : ℚ))
      ∧ -1 ≤ calculate_sgm attitudes edges ∧ calculate_sgm attitudes edges ≤ 1 := by
    intro att edges b i hbi hne hlen
    have heq : calculate_sgm att edges = ((b : ℚ) - (i : ℚ)) / ((b : ℚ) + (i : ℚ)) := by
      unfold calculate_sgm
      rw [if_neg hlen, hbi]
      rw [if_neg hne]
    have hposnat : 0 < b + i := Nat.pos_of_ne_zero hne
    have hpos : (0 : ℚ) < (b : ℚ) + (i : ℚ) := by exact_mod_cast hposnat
    have hb0 : (0 : ℚ) ≤ (b : ℚ) := Nat.cast_nonneg b
    have hi0 : (0 : ℚ) ≤ (i : ℚ) := Nat.cast_nonneg i
    refine ⟨heq, ?_, ?_⟩
    · rw [heq, le_div_iff₀ hpos]
      linarith
    · rw [heq, div_le_one hpos]
      linarith
  refine ⟨hpart1, hpart2, hpart3, ?_⟩
  have hAB : relationSign c6Attitudes c6Edges "A" "B" = some 1 := rfl
  have hBC : relationSign c6Attitudes c6Edges "B" "C" = some 1 := rfl
  have hCA : relationSign c6Attitudes c6Edges "C" "A" = some (-1) := rfl
  have hmapfst : c6Attitudes.map Prod.fst = ["A", "B", "C"] := rfl
  have htriads : triadsOf (c6Attitudes.map Prod.fst) = [("A", "B", "C")] := rfl
  have hcount : countBalance c6Attitudes c6Edges (triadsOf (c6Attitudes.map Prod.fst))
      = (0, 1) := by
    rw [htriads]
    unfold countBalance
    rw [List.foldl_cons, List.foldl_nil]
    rw [show (("A", "B", "C") : String × String × String).1 = "A" from rfl]
    rw [hAB, hBC, hCA]
    norm_num
  have hsgm : calculate_sgm c6Attitudes c6Edges = -1 := by
    have := hpart3 c6Attitudes c6Edges 0 1 hcount (by norm_num)
      (by rw [show c6Attitudes.length = 3 from rfl]; norm_num)
    rw [this.1]
    norm_num
  exact ⟨hAB, hBC, hCA, hcount, hsgm⟩

/-- Witness for C6: the spec's two-attitude scenario returns 0. -/
theorem c6_sgm_witness : calculate_sgm [("A", (1 : ℚ)), ("B", 1)] [] = 0 :=
  c6_sgm.1 [("A", 1), ("B", 1)] [] (by norm_num)

/-! ## Claim C7 -/

theorem Walker.choices_eq_nil_of_no_positions (w : Walker)
    (ha : w.positions_accepted = []) (hr : w.positions_rejected = []) :
    w.choices = [] := by
  cases hc : w.choices with
  | nil => rfl
  | cons c rest =>
      by_cases hacc : c.accepted
      · unfold Walker.positions_accepted at ha
        rw [hc] at ha
        simp [hacc] at ha
      · unfold Walker.positions_rejected at hr
        rw [hc] at hr
        simp [hacc] at hr

/-- C7: `predict_position` returns predicted_acceptance 0.5 and
uncertainty 1.0 for a walker with no choices, and 0.5 / 0.8 for a walker
with at least one choice but zero combined signals. -/
theorem c7_predict_position :
    (∀ (g : Graph) (w : Walker) (pos : Position), w.choices = [] →
        predict_position g w pos =
          { position_id := pos.id, predicted_acceptance := 0.5, uncertainty := 1 })
    ∧ (∀ (g : Graph) (w : Walker) (pos : Position), w.choices ≠ [] →
        totalSignals g w pos.id = 0 →
        predict_position g w pos =
          { position_id := pos.id, predicted_acceptance := 0.5, uncertainty := 0.8 }) := by
  constructor
  · intro g w pos h
    have ha : w.positions_accepted = [] := by
      unfold Walker.positions_accepted
      rw [h]
      rfl
    have hr : w.positions_rejected = [] := by
      unfold Walker.positions_rejected
      rw [h]
      rfl
    unfold predict_position
    rw [if_pos ⟨ha, hr⟩]
  · intro g w pos h hsig
    unfold predict_position
    rw [if_neg fun hboth =>
      h (Walker.choices_eq_nil_of_no_positions w hboth.1 hboth.2)]
    rw [if_pos hsig]

/-- Witness for C7 at concrete walkers (no choices; one choice with zero
signals in an empty graph). -/
theorem c7_predict_position_witness :
    predict_position ({} : Graph) c5Walker (mkPos "c")
      = { position_id := (mkPos "c").id, predicted_acceptance := 0.5, uncertainty := 1 }
    ∧ predict_position ({} : Graph) c7Walker (mkPos "c")
      = { position_id := (mkPos "c").id, predicted_acceptance := 0.5, uncertainty := 0.8 } :=
  ⟨c7_predict_position.1 {} c5Walker (mkPos "c") rfl,
   c7_predict_position.2 {} c7Walker (mkPos "c") (by simp [c7Walker]) rfl⟩

/-! ## Claim C8 -/

/-- C8: on a position with one incoming weight-1.0 edge from a source with
100 visits and 0 visits of its own, `detect_voids` computes expected = 100
and void_ratio = 1 and returns exactly that void whenever
min_expected ≤ 100 and min_void_ratio ≤ 1. -/
theorem c8_detect_voids (min_expected min_void_ratio : ℚ)
    (hme : min_expected ≤ 100) (hmv : min_void_ratio ≤ 1) :
    detect_voids c8Graph min_expected min_void_ratio = [c8Void] := by
  have hexp : voidExpected c8Graph "X" = 100 := by
    show ([((c8SourcePos.visit_count : ℚ)) * c8Edge.weight]).sum = 100
    rw [List.sum_singleton]
    norm_num [c8SourcePos, c8Edge]
  have hratio : voidRatio c8Graph "X" c8VoidPos = 1 := by
    unfold voidRatio
    rw [hexp, if_pos (by norm_num : (0:ℚ) < 100)]
    norm_num [c8VoidPos]
  have hreasons : hypothesizeVoidReasons c8Graph c8VoidPos (c8Graph.edges_to "X")
      = ["unknown"] := by
    unfold hypothesizeVoidReasons
    rw [show Graph.contradicts c8Graph c8VoidPos.id = [] from rfl]
    rw [show dedupKeepFirst ((c8Graph.edges_to "X").filterMap (fun e =>
      (alookup e.source_id c8Graph.positions).map (fun s => s.domain.toStr)))
      = ["uncategorized"] from rfl]
    norm_num [c8VoidPos]
  have hSempty : (c8Graph.edges_to "S").isEmpty = true := rfl
  have hXempty : (c8Graph.edges_to "X").isEmpty = false := rfl
  have hnotlt : ¬ voidExpected c8Graph "X" < min_expected := by
    rw [hexp]
    exact not_lt.mpr hme
  have hge : min_void_ratio ≤ voidRatio c8Graph "X" c8VoidPos := by
    rw [hratio]
    exact hmv
  have hfrom : voidExpectedFrom c8Graph "X" = ["S"] := rfl
  have htrunc : ratTrunc (voidExpected c8Graph "X") = 100 := by
    rw [hexp]
    unfold ratTrunc
    rw [if_pos (by norm_num : (0:ℚ) ≤ 100)]
    norm_num
  unfold detect_voids
  rw [show c8Graph.positions = [("S", c8SourcePos), ("X", c8VoidPos)] from rfl]
  rw [detectVoidsScan, if_pos hSempty]
  rw [detectVoidsScan]
  rw [if_neg (by rw [hXempty]; exact Bool.false_ne_true)]
  rw [if_neg hnotlt, if_pos hge]
  rw [show detectVoidsScan c8Graph min_expected min_void_ratio [] = [] from rfl]
  rw [List.foldl_cons, List.foldl_nil]
  rw [htrunc, hratio, hreasons, hfrom]
  rfl

/-- Witness for C8 at the source's default thresholds. -/
theorem c8_detect_voids_witness :
    detect_voids c8Graph 5 0.7 = [c8Void] :=
  c8_detect_voids 5 0.7 (by norm_num) (by norm_num)

end Ideograph
